import Mathlib

/-!
# Verification of the auth core of aws-payment-gateway

A shallow embedding, in Lean 4, of the credential-issuance and
request-authentication layer of the repository: the API-key issuance and
validation use cases, the DynamoDB-backed API-key / idempotency / rate-limit /
audit stores, and the HTTP middleware that composes them.  Go functions become
Lean functions; the DynamoDB table underneath each repository becomes an
explicit list of items threaded through the operations; `time.Now()` and the
random sources (`uuid.New`, `crypto/rand`) become explicit parameters.
Machine integers are modelled as `Nat` (all quantities involved are
non-negative counters or Unix timestamps).  Third-party cryptography is
treated as follows: SHA-256 (`crypto/sha256`) is implemented executably below;
bcrypt (`golang.org/x/crypto/bcrypt`) is salted and non-deterministic, so it
is carried as an explicit function parameter wherever the code calls it.
-/

/-! ## Bytes, hex, and SHA-256 (crypto/sha256)

`sha256Hex` is the Lean counterpart of
`hex.EncodeToString(sha256.Sum256([]byte(s))[:])`, the combination the Go code
uses both in `DynamoDBApiKeyRepository.ValidateByKey` and in the idempotency
middleware's `generateRequestHash`.  The implementation is the FIPS 180-4
algorithm over `Nat`, with all word arithmetic taken modulo `2^32`; recursion
is fuelled so that every definition reduces in the kernel. -/

def utf8BytesOfChar (c : Char) : List Nat :=
  let n := c.toNat
  if n < 0x80 then [n]
  else if n < 0x800 then [0xC0 ||| (n >>> 6), 0x80 ||| (n &&& 0x3F)]
  else if n < 0x10000 then
    [0xE0 ||| (n >>> 12), 0x80 ||| ((n >>> 6) &&& 0x3F), 0x80 ||| (n &&& 0x3F)]
  else
    [0xF0 ||| (n >>> 18), 0x80 ||| ((n >>> 12) &&& 0x3F),
     0x80 ||| ((n >>> 6) &&& 0x3F), 0x80 ||| (n &&& 0x3F)]

def utf8Bytes (s : String) : List Nat :=
  s.data.flatMap utf8BytesOfChar

def hexDigit (n : Nat) : Char :=
  if n < 10 then Char.ofNat (48 + n) else Char.ofNat (87 + n)

/-- Big-endian hex rendering of one 32-bit word as exactly 8 characters. -/
def wordToHex (w : Nat) : List Char :=
  (List.range 8).map (fun i => hexDigit ((w >>> (28 - 4 * i)) &&& 0xF))

def rotr32 (n x : Nat) : Nat :=
  ((x >>> n) ||| (x <<< (32 - n))) &&& 0xFFFFFFFF

/-- The eight-word working state of SHA-256. -/
structure Sha256State where
  a : Nat
  b : Nat
  c : Nat
  d : Nat
  e : Nat
  f : Nat
  g : Nat
  h : Nat

def sha256Init : Sha256State :=
  ⟨1779033703, 3144134277, 1013904242, 2773480762,
   1359893119, 2600822924, 528734635, 1541459225⟩

def sha256K : List Nat :=
  [1116352408, 1899447441, 3049323471, 3921009573, 961987163,
   1508970993, 2453635748, 2870763221, 3624381080, 310598401,
   607225278, 1426881987, 1925078388, 2162078206, 2614888103,
   3248222580, 3835390401, 4022224774, 264347078, 604807628,
   770255983, 1249150122, 1555081692, 1996064986, 2554220882,
   2821834349, 2952996808, 3210313671, 3336571891, 3584528711,
   113926993, 338241895, 666307205, 773529912, 1294757372,
   1396182291, 1695183700, 1986661051, 2177026350, 2456956037,
   2730485921, 2820302411, 3259730800, 3345764771, 3516065817,
   3600352804, 4094571909, 275423344, 430227734, 506948616,
   659060556, 883997877, 958139571, 1322822218, 1537002063,
   1747873779, 1955562222, 2024104815, 2227730452, 2361852424,
   2428436474, 2756734187, 3204031479, 3329325298]

/-- Message padding: append `0x80`, zeros to 56 mod 64, then the 64-bit
big-endian bit length. -/
def sha256Pad (msg : List Nat) : List Nat :=
  let len := msg.length
  let bitLen := len * 8
  let zeros := (64 + 56 - ((len + 1) % 64)) % 64
  msg ++ [0x80] ++ List.replicate zeros 0 ++
    (List.range 8).map (fun i => (bitLen >>> (56 - 8 * i)) &&& 0xFF)

/-- Group bytes into big-endian 32-bit words. -/
def bytesToWords : List Nat → List Nat
  | b0 :: b1 :: b2 :: b3 :: rest =>
      (((b0 * 256 + b1) * 256 + b2) * 256 + b3) :: bytesToWords rest
  | _ => []

def sha256SmallSigma0 (x : Nat) : Nat := rotr32 7 x ^^^ rotr32 18 x ^^^ (x >>> 3)
def sha256SmallSigma1 (x : Nat) : Nat := rotr32 17 x ^^^ rotr32 19 x ^^^ (x >>> 10)
def sha256BigSigma0 (x : Nat) : Nat := rotr32 2 x ^^^ rotr32 13 x ^^^ rotr32 22 x
def sha256BigSigma1 (x : Nat) : Nat := rotr32 6 x ^^^ rotr32 11 x ^^^ rotr32 25 x

/-- Message-schedule extension, accumulating the schedule in reverse;
`fuel` counts the 48 remaining words. -/
def sha256Extend (fuel : Nat) (acc : List Nat) : List Nat :=
  match fuel with
  | 0 => acc.reverse
  | fuel + 1 =>
      let w2 := acc.getD 1 0
      let w7 := acc.getD 6 0
      let w15 := acc.getD 14 0
      let w16 := acc.getD 15 0
      let w := (sha256SmallSigma1 w2 + w7 + sha256SmallSigma0 w15 + w16) &&& 0xFFFFFFFF
      sha256Extend fuel (w :: acc)

def sha256Round (st : Sha256State) (kw : Nat × Nat) : Sha256State :=
  let t1 := (st.h + sha256BigSigma1 st.e + ((st.e &&& st.f) ^^^ ((st.e ^^^ 0xFFFFFFFF) &&& st.g))
             + kw.1 + kw.2) &&& 0xFFFFFFFF
  let t2 := (sha256BigSigma0 st.a
             + ((st.a &&& st.b) ^^^ (st.a &&& st.c) ^^^ (st.b &&& st.c))) &&& 0xFFFFFFFF
  ⟨(t1 + t2) &&& 0xFFFFFFFF, st.a, st.b, st.c,
   (st.d + t1) &&& 0xFFFFFFFF, st.e, st.f, st.g⟩

/-- Compress one 64-byte chunk into the running state. -/
def sha256Compress (st : Sha256State) (chunk : List Nat) : Sha256State :=
  let w16 := bytesToWords chunk
  let w := sha256Extend 48 w16.reverse
  let r := (sha256K.zip w).foldl sha256Round st
  ⟨(st.a + r.a) &&& 0xFFFFFFFF, (st.b + r.b) &&& 0xFFFFFFFF,
   (st.c + r.c) &&& 0xFFFFFFFF, (st.d + r.d) &&& 0xFFFFFFFF,
   (st.e + r.e) &&& 0xFFFFFFFF, (st.f + r.f) &&& 0xFFFFFFFF,
   (st.g + r.g) &&& 0xFFFFFFFF, (st.h + r.h) &&& 0xFFFFFFFF⟩

/-- Process the padded message 64 bytes at a time; `fuel` bounds the number of
chunks so the recursion is structural. -/
def sha256Chunks (fuel : Nat) (st : Sha256State) (msg : List Nat) : Sha256State :=
  match fuel with
  | 0 => st
  | fuel + 1 =>
      match msg with
      | [] => st
      | _ => sha256Chunks fuel (sha256Compress st (msg.take 64)) (msg.drop 64)

def sha256StateHex (st : Sha256State) : List Char :=
  wordToHex st.a ++ wordToHex st.b ++ wordToHex st.c ++ wordToHex st.d ++
  wordToHex st.e ++ wordToHex st.f ++ wordToHex st.g ++ wordToHex st.h

/-- `hex.EncodeToString(sha256.Sum256([]byte(s))[:])` from the Go code. -/
def sha256Hex (s : String) : String :=
  let padded := sha256Pad (utf8Bytes s)
  String.mk (sha256StateHex (sha256Chunks (padded.length / 64 + 1) sha256Init padded))

theorem sha256Hex_length (s : String) : (sha256Hex s).length = 64 := by
  simp [sha256Hex, String.length, sha256StateHex, wordToHex]

/-! ## Domain model (internal/auth/domain)

Faithful translations of the Go structs and their methods.  `time.Time` is a
Unix timestamp in seconds (`Nat`); `t.Before(u)` is `t < u` and `t.After(u)`
is `u < t`.  `uuid.UUID` values are carried as their canonical string form,
which is how every repository embeds them into DynamoDB keys. -/

inductive AccountStatus where
  | active
  | suspended
  | deleted
deriving DecidableEq

/-- domain.Account. -/
structure Account where
  id : String
  name : String
  status : AccountStatus
  webhookURL : Option String
  createdAt : Nat
  updatedAt : Nat
deriving DecidableEq

/-- Account.IsValid: the account is active. -/
def Account.IsValid (a : Account) : Bool :=
  a.status = AccountStatus.active

inductive ApiKeyStatus where
  | active
  | inactive
deriving DecidableEq

/-- domain.ApiKey.  A single hash field `keyHash`, exactly as in the Go
struct. -/
structure ApiKey where
  id : String
  accountID : String
  name : String
  keyHash : String
  permissions : List String
  status : ApiKeyStatus
  lastUsedAt : Option Nat
  expiresAt : Nat
  createdAt : Nat
deriving DecidableEq

/-- ApiKey.IsValid at instant `now`: active status and
`time.Now().Before(k.ExpiresAt)`. -/
def ApiKey.IsValid (k : ApiKey) (now : Nat) : Bool :=
  k.status = ApiKeyStatus.active && now < k.expiresAt

/-- ApiKey.IsExpired at instant `now`: `time.Now().After(k.ExpiresAt)`. -/
def ApiKey.IsExpired (k : ApiKey) (now : Nat) : Bool :=
  k.expiresAt < now

/-- ApiKey.HasPermission. -/
def ApiKey.HasPermission (k : ApiKey) (permission : String) : Bool :=
  k.permissions.any (fun p => p = permission)

inductive IdempotencyKeyStatus where
  | pending
  | completed
  | expired
deriving DecidableEq

def IdempotencyKeyStatus.toGoString : IdempotencyKeyStatus → String
  | .pending => "pending"
  | .completed => "completed"
  | .expired => "expired"

/-- domain.IdempotencyKey. -/
structure IdempotencyKey where
  id : String
  accountID : String
  requestHash : String
  status : IdempotencyKeyStatus
  response : String
  createdAt : Nat
  expiresAt : Nat
deriving DecidableEq

/-- IdempotencyKey.IsExpired at instant `now`: `time.Now().After(k.ExpiresAt)`. -/
def IdempotencyKey.IsExpired (k : IdempotencyKey) (now : Nat) : Bool :=
  k.expiresAt < now

/-- The fixed permission allow-list of internal/auth/domain. -/
def validPermissions : List String :=
  ["read:accounts", "write:accounts", "read:keys", "write:keys", "manage:webhooks"]

/-- usecase.isValidPermission: membership in the allow-list. -/
def isValidPermission (permission : String) : Bool :=
  validPermissions.any (fun valid => permission = valid)

/-- security.ConstantTimeCompare: `subtle.ConstantTimeCompare` over the bytes
of the two strings, which is equality (it returns 0 whenever the lengths
differ). -/
def ConstantTimeCompare (a b : String) : Bool :=
  a = b

def AccountStatus.toGoString : AccountStatus → String
  | .active => "active"
  | .suspended => "suspended"
  | .deleted => "deleted"

/-! ## usecase.ValidateApiKey (part_007)

`ValidateApiKey.Execute` first queries the key repository, then builds the
output and consults the account repository.  The construction of the output
from the repository results (lines 76-106 of the use case) is shared by both
repository variants, so it is a function of the repository's answers:
`apiKey?` is what `ValidateByKey` returned (`nil` becomes `none`) and
`accountOf` is `AppRepository.GetByID`, which returns `(nil, nil)` for a
missing row (part_010). -/

structure ValidateApiKeyOutput where
  valid : Bool
  accountID : Option String
  apiKeyID : Option String
  name : Option String
  permissions : List String
  lastUsedAt : Option Nat
  expiresAt : Option Nat
  accountName : Option String
  accountStatus : Option String
deriving DecidableEq

/-- Lines 76-106 of ValidateApiKey.Execute: `Valid := apiKey != nil &&
apiKey.IsValid() && !apiKey.IsExpired()`; identity fields are filled whenever
the key resolved; a present account contributes its name/status and forces
`Valid=false` unless it is active; an absent account leaves the output
untouched. -/
def validateApiKeyOutput (now : Nat) (apiKey? : Option ApiKey)
    (accountOf : String → Option Account) : ValidateApiKeyOutput :=
  match apiKey? with
  | none =>
      { valid := false, accountID := none, apiKeyID := none, name := none,
        permissions := [], lastUsedAt := none, expiresAt := none,
        accountName := none, accountStatus := none }
  | some k =>
      let out : ValidateApiKeyOutput :=
        { valid := k.IsValid now && !(k.IsExpired now),
          accountID := some k.accountID, apiKeyID := some k.id,
          name := some k.name, permissions := k.permissions,
          lastUsedAt := k.lastUsedAt, expiresAt := some k.expiresAt,
          accountName := none, accountStatus := none }
      match accountOf k.accountID with
      | none => out
      | some account =>
          { out with
            accountName := some account.name,
            accountStatus := some account.status.toGoString,
            valid := out.valid && account.IsValid }

/-! ## DynamoDBApiKeyRepository, GSI variant (part_009)

The repository that issuance (part_008) and validation (part_007) are wired
to in the claim sources.  The DynamoDB table is a list of items; `PutItem`
replaces the item with the same primary key or appends; the `gsi1` query
returns the first item whose `gsi1pk` attribute equals the searched value. -/

namespace GSIRepo

structure Item where
  pk : String
  sk : String
  gsi1pk : String
  gsi2pk : String
  ttl : Nat
  key : ApiKey
deriving DecidableEq

def putItem (it : Item) (table : List Item) : List Item :=
  if table.any (fun o => o.pk = it.pk && o.sk = it.sk) then
    table.map (fun o => if o.pk = it.pk && o.sk = it.sk then it else o)
  else
    table ++ [it]

/-- DynamoDBApiKeyRepository.Create: stamp `CreatedAt`, build the item with
`gsi1pk = KEYHASH#<KeyHash>` and TTL at the expiry instant, and put it. -/
def create (now : Nat) (apiKey : ApiKey) (table : List Item) : List Item :=
  let apiKey := { apiKey with createdAt := now }
  putItem
    { pk := "ACCOUNT#" ++ apiKey.accountID,
      sk := "APIKEY#" ++ apiKey.id,
      gsi1pk := "KEYHASH#" ++ apiKey.keyHash,
      gsi2pk := "APIKEY#" ++ apiKey.id,
      ttl := apiKey.expiresAt,
      key := apiKey }
    table

/-- DynamoDBApiKeyRepository.ValidateByKey (part_009): hash the raw key with
SHA-256, query `gsi1` for `KEYHASH#<hash>`, constant-time-compare the stored
hash, reject expired keys, then best-effort update `last_used_at`. -/
def validateByKey (now : Nat) (rawKey : String) (table : List Item) :
    Option ApiKey × List Item :=
  let hashStr := sha256Hex rawKey
  match table.find? (fun it => it.gsi1pk = "KEYHASH#" ++ hashStr) with
  | none => (none, table)
  | some it =>
      if !(ConstantTimeCompare hashStr it.key.keyHash) then (none, table)
      else if it.key.IsExpired now then (none, table)
      else
        (some { it.key with lastUsedAt := some now },
         table.map (fun o =>
           if o.pk = it.pk && o.sk = it.sk then
             { o with key := { o.key with lastUsedAt := some now } }
           else o))

end GSIRepo

/-! ## usecase.IssueApiKey (part_008) over the GSI repository -/

structure IssueApiKeyInput where
  accountID : String
  name : String
  permissions : List String
  expiresIn : Option Nat
deriving DecidableEq

structure IssueApiKeyOutput where
  apiKeyID : String
  apiKey : String
  keyHash : String
  accountID : String
  name : String
  permissions : List String
  status : String
  expiresAt : Nat
  createdAt : Nat
deriving DecidableEq

/-- IssueApiKey.Execute: validate permissions against the allow-list, require
an active account, generate the secret and its bcrypt hash
(`auth.GenerateAPIKeyWithHash`, carried as `bcryptHash` plus the fresh
`rawSecret`), compute expiry as now + hours (or now when absent), persist via
the repository, and return the raw secret once. -/
def issueApiKeyExecute (bcryptHash : String → String)
    (accountOf : String → Option Account) (now : Nat)
    (freshKeyId rawSecret : String) (input : IssueApiKeyInput)
    (table : List GSIRepo.Item) :
    Except String (IssueApiKeyOutput × List GSIRepo.Item) :=
  if input.permissions.isEmpty then
    .error "invalid input: at least one permission is required"
  else if !(input.permissions.all isValidPermission) then
    .error "invalid input: invalid permission"
  else
    match accountOf input.accountID with
    | none => .error "account not found or inactive"
    | some account =>
        if !account.IsValid then .error "account not found or inactive"
        else
          let hashedKey := bcryptHash rawSecret
          let expiresAt :=
            match input.expiresIn with
            | some hours => now + hours * 3600
            | none => now
          let entity : ApiKey :=
            { id := freshKeyId, accountID := input.accountID,
              name := input.name, keyHash := hashedKey,
              permissions := input.permissions, status := .active,
              lastUsedAt := none, expiresAt := expiresAt, createdAt := now }
          .ok
            ({ apiKeyID := entity.id, apiKey := rawSecret,
               keyHash := hashedKey, accountID := input.accountID,
               name := input.name, permissions := input.permissions,
               status := "active", expiresAt := expiresAt, createdAt := now },
             GSIRepo.create now entity table)

/-- ValidateApiKey.Execute (raw-key path) over the GSI repository: reject an
empty raw key, call `ValidateByKey`, then build the output against the
account store. -/
def validateApiKeyExecute (accountOf : String → Option Account) (now : Nat)
    (rawKey : String) (table : List GSIRepo.Item) :
    Except String (ValidateApiKeyOutput × List GSIRepo.Item) :=
  if rawKey = "" then .error "either raw_key or key_hash must be provided"
  else
    let res := GSIRepo.validateByKey now rawKey table
    .ok (validateApiKeyOutput now res.1 accountOf, res.2)

/-! ## String helper lemmas -/

theorem string_append_left_cancel (p a b : String) (h : p ++ a = p ++ b) : a = b := by
  have h2 : p.data ++ a.data = p.data ++ b.data := by
    simpa [String.data_append] using congrArg String.data h

  exact String.ext (List.append_cancel_left h2)

/-! ## C1: issue-then-validate round trip (part_008 + part_007 + part_009)

`IssueApiKey.Execute` persists `KeyHash = bcrypt(raw)` and the repository sets
`gsi1pk = KEYHASH#<bcrypt(raw)>`, while `ValidateByKey` looks the key up under
`KEYHASH#<sha256hex(raw)>`.  A bcrypt digest is never the SHA-256 hex digest
of the same secret (it is 60 bytes of radix-64 starting with a dollar sign;
the SHA-256 hex encoding is 64 characters), so the lookup misses and every
freshly issued key validates as `valid=false`. -/

/-- A gsi1 lookup over a table in which no item carries the searched
`gsi1pk` value returns nothing and leaves the table untouched. -/
theorem GSIRepo.validateByKey_none (now : Nat) (raw : String)
    (table : List GSIRepo.Item)
    (h : ∀ it ∈ table, it.gsi1pk ≠ "KEYHASH#" ++ sha256Hex raw) :
    GSIRepo.validateByKey now raw table = (none, table) := by
  have hfind : List.find?
      (fun it => decide (it.gsi1pk = "KEYHASH#" ++ sha256Hex raw)) table = none :=
    List.find?_eq_none.mpr (by simpa using h)
  simp [GSIRepo.validateByKey, hfind]

/-- C1: issuing a key into an empty store and immediately validating with the
returned raw secret yields `valid = false` — the opposite of the round-trip
property — whenever the bcrypt digest of the secret differs from its SHA-256
hex digest (always true of real bcrypt: the outputs do not even have the same
length). -/
theorem C1_issue_then_validate_not_valid
    (bcryptHash : String → String) (accountOf : String → Option Account)
    (now : Nat) (freshKeyId rawSecret : String) (input : IssueApiKeyInput)
    (out : IssueApiKeyOutput) (table1 : List GSIRepo.Item)
    (hbcrypt : bcryptHash rawSecret ≠ sha256Hex rawSecret)
    (hraw : rawSecret ≠ "")
    (hissue : issueApiKeyExecute bcryptHash accountOf now freshKeyId rawSecret
      input [] = .ok (out, table1)) :
    ∃ res table2,
      validateApiKeyExecute accountOf now out.apiKey table1 = .ok (res, table2) ∧
      res.valid = false := by
  unfold issueApiKeyExecute at hissue
  split at hissue
  · exact absurd hissue (by simp)
  split at hissue
  · exact absurd hissue (by simp)
  split at hissue
  · exact absurd hissue (by simp)
  split at hissue
  · exact absurd hissue (by simp)
  rw [Except.ok.injEq, Prod.mk.injEq] at hissue
  obtain ⟨hout, htab⟩ := hissue
  have hne : ¬("KEYHASH#" ++ bcryptHash rawSecret = "KEYHASH#" ++ sha256Hex rawSecret) :=
    fun h => hbcrypt (string_append_left_cancel _ _ _ h)
  have hmem : ∀ it ∈ table1, it.gsi1pk = "KEYHASH#" ++ bcryptHash rawSecret := by
    rw [← htab]; simp [GSIRepo.create, GSIRepo.putItem]
  have hnone := GSIRepo.validateByKey_none now rawSecret table1
    (fun it hit => by rw [hmem it hit]; exact hne)
  have hkey : out.apiKey = rawSecret := by rw [← hout]
  refine ⟨validateApiKeyOutput now none accountOf, table1, ?_,
    by simp [validateApiKeyOutput]⟩
  rw [hkey]
  simp [validateApiKeyExecute, hraw, hnone]

/-! Concrete instantiation used by the C1 witness and the C7 counterexample:
a fixed bcrypt digest (60 radix-64 bytes behind the `$2a$10$` header, the
shape `bcrypt.GenerateFromPassword` always returns), one active account, and
one issuance request. -/

def cBcrypt : String → String :=
  fun _ => "$2a$10$N9qo8uLOickgx2ZMRZoMyeIjZAgcfl7p92ldGxad68LJZdL17lhWy"

def cAccount : Account :=
  { id := "acc-1", name := "Acme", status := .active, webhookURL := none,
    createdAt := 0, updatedAt := 0 }

def cAccountOf : String → Option Account :=
  fun i => if i = "acc-1" then some cAccount else none

def cIssueInput : IssueApiKeyInput :=
  { accountID := "acc-1", name := "svc key", permissions := ["read:accounts"],
    expiresIn := some 1 }

def cIssuedKey : ApiKey :=
  { id := "key-1", accountID := "acc-1", name := "svc key",
    keyHash := "$2a$10$N9qo8uLOickgx2ZMRZoMyeIjZAgcfl7p92ldGxad68LJZdL17lhWy",
    permissions := ["read:accounts"], status := .active, lastUsedAt := none,
    expiresAt := 3600, createdAt := 0 }

def cIssueOut : IssueApiKeyOutput :=
  { apiKeyID := "key-1", apiKey := "rawsecret-1",
    keyHash := "$2a$10$N9qo8uLOickgx2ZMRZoMyeIjZAgcfl7p92ldGxad68LJZdL17lhWy",
    accountID := "acc-1", name := "svc key", permissions := ["read:accounts"],
    status := "active", expiresAt := 3600, createdAt := 0 }

def cIssuedItem : GSIRepo.Item :=
  { pk := "ACCOUNT#acc-1", sk := "APIKEY#key-1",
    gsi1pk := "KEYHASH#$2a$10$N9qo8uLOickgx2ZMRZoMyeIjZAgcfl7p92ldGxad68LJZdL17lhWy",
    gsi2pk := "APIKEY#key-1", ttl := 3600, key := cIssuedKey }

/-- Witness for C1 at a concrete issuance: the hypotheses hold and the
freshly issued key validates as `valid=false`. -/
theorem C1_issue_then_validate_not_valid_witness :
    cBcrypt "rawsecret-1" ≠ sha256Hex "rawsecret-1" ∧
    ("rawsecret-1" : String) ≠ "" ∧
    issueApiKeyExecute cBcrypt cAccountOf 0 "key-1" "rawsecret-1" cIssueInput []
      = .ok (cIssueOut, [cIssuedItem]) ∧
    ∃ res table2,
      validateApiKeyExecute cAccountOf 0 cIssueOut.apiKey [cIssuedItem]
        = .ok (res, table2) ∧ res.valid = false :=
  ⟨by decide, by decide, by rfl,
   C1_issue_then_validate_not_valid cBcrypt cAccountOf 0 "key-1" "rawsecret-1"
     cIssueInput cIssueOut [cIssuedItem] (by decide) (by decide) (by rfl)⟩

/-! ## C2: the usability condition of ValidateApiKey.Execute

The spec says a key is usable iff it is active, unexpired, and its owning
account is active — with an absent or non-active account record forcing
`valid=false`.  The code only forces `valid=false` when the account record is
*present* and non-active; when `GetByID` returns no row the `if account !=
nil` block is skipped and `valid` keeps its key-only value (the repository's
own test suite pins this: "Key is valid but account info is missing"). -/

/-- C2 exactly as claimed: `valid=true` iff the key resolved, is active,
`now` is strictly before its expiry, and the owning account record exists and
is active. -/
def c2ClaimStatement : Prop :=
  ∀ (now : Nat) (apiKey? : Option ApiKey) (accountOf : String → Option Account),
    ((validateApiKeyOutput now apiKey? accountOf).valid = true ↔
      ∃ k, apiKey? = some k ∧ k.status = ApiKeyStatus.active ∧
        now < k.expiresAt ∧
        ∃ a, accountOf k.accountID = some a ∧ a.status = AccountStatus.active)

/-- An active unexpired key owned by an account with no stored record. -/
def c2Key : ApiKey :=
  { id := "key-2", accountID := "acc-gone", name := "orphan",
    keyHash := "h", permissions := ["read:accounts"], status := .active,
    lastUsedAt := none, expiresAt := 100, createdAt := 0 }

/-- C2 as stated is false: with the account record absent, validation still
returns `valid=true`. -/
theorem C2_counterexample : ¬ c2ClaimStatement := by
  intro h
  obtain ⟨k, hk, -, -, a, ha, -⟩ :=
    (h 50 (some c2Key) (fun _ => none)).mp (by decide)
  cases ha

/-- C2 amended: `valid=true` iff the key resolved, is active, `now` is
strictly before its expiry, and every *present* account record for the owner
is active — an absent account record does not invalidate the key. -/
theorem C2_usability_account_present
    (now : Nat) (apiKey? : Option ApiKey)
    (accountOf : String → Option Account) :
    (validateApiKeyOutput now apiKey? accountOf).valid = true ↔
      ∃ k, apiKey? = some k ∧ k.status = ApiKeyStatus.active ∧
        now < k.expiresAt ∧
        ∀ a, accountOf k.accountID = some a → a.status = AccountStatus.active := by
  cases apiKey? with
  | none => simp [validateApiKeyOutput]
  | some k =>
      cases haccount : accountOf k.accountID with
      | none =>
          simp only [validateApiKeyOutput, haccount, ApiKey.IsValid,
            ApiKey.IsExpired, Option.some.injEq]
          constructor
          · intro hv
            simp only [Bool.and_eq_true, Bool.not_eq_true', decide_eq_true_eq,
              decide_eq_false_iff_not] at hv
            exact ⟨k, rfl, hv.1.1, hv.1.2, fun a ha => by
              rw [haccount] at ha; cases ha⟩
          · rintro ⟨k', hk', hst, hlt, -⟩
            cases hk'
            simp only [Bool.and_eq_true, Bool.not_eq_true', decide_eq_true_eq,
              decide_eq_false_iff_not]
            exact ⟨⟨hst, hlt⟩, by omega⟩
      | some a =>
          simp only [validateApiKeyOutput, haccount, Account.IsValid,
            ApiKey.IsValid, ApiKey.IsExpired, Option.some.injEq]
          constructor
          · intro hv
            simp only [Bool.and_eq_true, Bool.not_eq_true', decide_eq_true_eq,
              decide_eq_false_iff_not] at hv
            exact ⟨k, rfl, hv.1.1.1, hv.1.1.2, fun a' ha' => by
              rw [haccount] at ha'; cases ha'; exact hv.2⟩
          · rintro ⟨k', hk', hst, hlt, hacct⟩
            cases hk'
            simp only [Bool.and_eq_true, Bool.not_eq_true', decide_eq_true_eq,
              decide_eq_false_iff_not]
            exact ⟨⟨⟨hst, hlt⟩, by omega⟩, hacct a haccount⟩

/-! ## C7: what issuance persists

The spec says the persisted row carries two distinct hashes — a slow salted
storage hash and a fast deterministic lookup hash.  The Go `domain.ApiKey` has
a single `KeyHash` field (set to the bcrypt digest), and the repository's
index attribute `gsi1pk` is derived from that same field, so no deterministic
SHA-256 lookup digest is ever persisted. -/

/-- C7 as claimed, read over the storage layout: each persisted row holds the
bcrypt storage hash in its hash field and the deterministic SHA-256 lookup
digest in its index attribute. -/
def c7ClaimStatement (bcryptHash : String → String) : Prop :=
  ∀ (accountOf : String → Option Account) (now : Nat)
    (freshKeyId rawSecret : String) (input : IssueApiKeyInput)
    (out : IssueApiKeyOutput) (table1 : List GSIRepo.Item),
    issueApiKeyExecute bcryptHash accountOf now freshKeyId rawSecret input []
      = .ok (out, table1) →
    out.apiKey = rawSecret ∧
    ∀ it ∈ table1,
      it.key.keyHash = bcryptHash rawSecret ∧
      it.gsi1pk = "KEYHASH#" ++ sha256Hex rawSecret

set_option maxRecDepth 4000 in
/-- C7 as stated is false: at a concrete issuance the persisted index
attribute is `KEYHASH#<bcrypt digest>`, not the SHA-256 lookup digest. -/
theorem C7_counterexample : ¬ c7ClaimStatement cBcrypt := by
  intro h
  obtain ⟨-, h2⟩ :=
    h cAccountOf 0 "key-1" "rawsecret-1" cIssueInput cIssueOut [cIssuedItem]
      (by rfl)
  exact absurd (h2 cIssuedItem (by simp)).2 (by decide)

/-- C7 amended: issuance returns the raw secret exactly once in the output,
and persists exactly one row whose only secret-derived material is the single
bcrypt hash field — the lookup index attribute is derived from that same
field rather than being an independent deterministic digest — together with
the permissions. -/
theorem C7_single_hash_persisted
    (bcryptHash : String → String) (accountOf : String → Option Account)
    (now : Nat) (freshKeyId rawSecret : String) (input : IssueApiKeyInput)
    (out : IssueApiKeyOutput) (table1 : List GSIRepo.Item)
    (hissue : issueApiKeyExecute bcryptHash accountOf now freshKeyId rawSecret
      input [] = .ok (out, table1)) :
    out.apiKey = rawSecret ∧
    ∃ it, table1 = [it] ∧
      it.key.keyHash = bcryptHash rawSecret ∧
      it.gsi1pk = "KEYHASH#" ++ it.key.keyHash ∧
      it.key.permissions = input.permissions := by
  unfold issueApiKeyExecute at hissue
  split at hissue
  · exact absurd hissue (by simp)
  split at hissue
  · exact absurd hissue (by simp)
  split at hissue
  · exact absurd hissue (by simp)
  split at hissue
  · exact absurd hissue (by simp)
  rw [Except.ok.injEq, Prod.mk.injEq] at hissue
  obtain ⟨hout, htab⟩ := hissue
  refine ⟨by rw [← hout], ?_⟩
  rw [← htab]
  simp only [GSIRepo.create, GSIRepo.putItem, List.any_nil, Bool.false_eq_true,
    if_false, List.nil_append]
  exact ⟨_, rfl, rfl, rfl, rfl⟩

/-- Witness for C7 at the concrete issuance used throughout. -/
theorem C7_single_hash_persisted_witness :
    issueApiKeyExecute cBcrypt cAccountOf 0 "key-1" "rawsecret-1" cIssueInput []
      = .ok (cIssueOut, [cIssuedItem]) ∧
    (cIssueOut.apiKey = "rawsecret-1" ∧
      ∃ it, ([cIssuedItem] : List GSIRepo.Item) = [it] ∧
        it.key.keyHash = cBcrypt "rawsecret-1" ∧
        it.gsi1pk = "KEYHASH#" ++ it.key.keyHash ∧
        it.key.permissions = cIssueInput.permissions) :=
  ⟨by rfl,
   C7_single_hash_persisted cBcrypt cAccountOf 0 "key-1" "rawsecret-1"
     cIssueInput cIssueOut [cIssuedItem] (by rfl)⟩

/-! ## google/uuid Parse

`CompleteIdempotency.Execute` runs `uuid.Parse` on the supplied idempotency
key before touching the store.  `uuidParse` reproduces the library's accepted
forms — canonical 36-character, `urn:uuid:`-prefixed (case-insensitive
prefix), 38-character brace form (whose final character the library never
verifies), and 32 bare hex digits — and returns the canonical lowercase
rendering of the parsed bytes.  Everything else is rejected. -/

def isHexDigitChar (c : Char) : Bool :=
  (('0' ≤ c) && (c ≤ '9')) || (('a' ≤ c) && (c ≤ 'f')) || (('A' ≤ c) && (c ≤ 'F'))

def hexVal (c : Char) : Nat :=
  if ('0' ≤ c) && (c ≤ '9') then c.toNat - 48
  else if ('a' ≤ c) && (c ≤ 'f') then c.toNat - 87
  else c.toNat - 55

def asciiLower (c : Char) : Char :=
  if ('A' ≤ c) && (c ≤ 'Z') then Char.ofNat (c.toNat + 32) else c

/-- Two hex characters to a byte (`xtob` in google/uuid). -/
def xtob (c1 c2 : Char) : Nat :=
  hexVal c1 * 16 + hexVal c2

def byteToHexPair (b : Nat) : List Char :=
  [hexDigit (b / 16), hexDigit (b % 16)]

/-- Canonical lowercase rendering of 16 bytes (`UUID.String()`). -/
def uuidStringOfBytes (bs : List Nat) : String :=
  String.mk
    ((bs.take 4).flatMap byteToHexPair ++ ['-'] ++
     ((bs.drop 4).take 2).flatMap byteToHexPair ++ ['-'] ++
     ((bs.drop 6).take 2).flatMap byteToHexPair ++ ['-'] ++
     ((bs.drop 8).take 2).flatMap byteToHexPair ++ ['-'] ++
     (bs.drop 10).flatMap byteToHexPair)

/-- The hyphenated-position table of google/uuid's `Parse`. -/
def uuidHexPositions : List Nat :=
  [0, 2, 4, 6, 9, 11, 14, 16, 19, 21, 24, 26, 28, 30, 32, 34]

/-- Parse the canonical `xxxxxxxx-xxxx-xxxx-xxxx-xxxxxxxxxxxx` layout from
the front of `cs` (any characters beyond index 35 are ignored, as in the
library). -/
def parseCanonical (cs : List Char) : Option String :=
  if (cs.getD 8 ' ' = '-') && (cs.getD 13 ' ' = '-') &&
     (cs.getD 18 ' ' = '-') && (cs.getD 23 ' ' = '-') then
    if uuidHexPositions.all
        (fun x => isHexDigitChar (cs.getD x ' ') && isHexDigitChar (cs.getD (x + 1) ' ')) then
      some (uuidStringOfBytes
        (uuidHexPositions.map (fun x => xtob (cs.getD x ' ') (cs.getD (x + 1) ' '))))
    else none
  else none

/-- Pair up hex characters into bytes for the 32-character form. -/
def hexPairsToBytes : List Char → List Nat
  | c1 :: c2 :: rest => xtob c1 c2 :: hexPairsToBytes rest
  | _ => []

/-- google/uuid `Parse`, composed with `UUID.String()`: the canonical string
of the parsed value, or `none` on rejection. -/
def uuidParse (s : String) : Option String :=
  let cs := s.data
  if cs.length = 36 then parseCanonical cs
  else if cs.length = 36 + 9 then
    if cs.take 9 |>.map asciiLower |>.beq "urn:uuid:".data then
      parseCanonical (cs.drop 9)
    else none
  else if cs.length = 36 + 2 then parseCanonical (cs.drop 1)
  else if cs.length = 32 then
    if cs.all isHexDigitChar then some (uuidStringOfBytes (hexPairsToBytes cs))
    else none
  else none

/-! ## Idempotency ledger (part_008 use cases, part_009 repository)

`DynamoDBIdempotencyKey` carries only `pk`, `sk` and `ttl` beside the domain
fields — it has no `gsi1pk` attribute, so items are modelled with
`gsi1pk := none` and, DynamoDB's sparse-index rule being that an item without
the index partition-key attribute does not appear in the index, the `gsi1`
query of `GetByRequestHash` can only see items whose `gsi1pk` is present. -/

namespace Idem

structure Item where
  pk : String
  sk : String
  gsi1pk : Option String
  ttl : Nat
  key : IdempotencyKey
deriving DecidableEq

/-- DynamoDB PutItem: replace the item with the same primary key, else
append. -/
def putItem (it : Item) (table : List Item) : List Item :=
  if table.any (fun o => o.pk = it.pk && o.sk = it.sk) then
    table.map (fun o => if o.pk = it.pk && o.sk = it.sk then it else o)
  else
    table ++ [it]

/-- DynamoDBIdempotencyKeyRepository.Create: restamp `CreatedAt`/`ExpiresAt`
(24-hour TTL) and put the item under `IDEMPOTENCY#<id>` / `KEY#<id>`; no
`gsi1pk` attribute is written. -/
def create (now : Nat) (k : IdempotencyKey) (table : List Item) : List Item :=
  let k2 := { k with createdAt := now, expiresAt := now + 24 * 3600 }
  putItem
    { pk := "IDEMPOTENCY#" ++ k2.id, sk := "KEY#" ++ k2.id,
      gsi1pk := none, ttl := k2.expiresAt, key := k2 }
    table

/-- DynamoDBIdempotencyKeyRepository.GetByID. -/
def getByID (id : String) (table : List Item) : Option IdempotencyKey :=
  (table.find? (fun it => it.pk = "IDEMPOTENCY#" ++ id && it.sk = "KEY#" ++ id)).map
    (fun it => it.key)

/-- DynamoDBIdempotencyKeyRepository.GetByRequestHash: `gsi1` query for
`gsi1pk = REQUEST#<hash>`, first result only. -/
def getByRequestHash (requestHash : String) (table : List Item) :
    Option IdempotencyKey :=
  (table.find? (fun it => it.gsi1pk = some ("REQUEST#" ++ requestHash))).map
    (fun it => it.key)

/-- DynamoDBIdempotencyKeyRepository.Update: SET status and response on the
composite key. -/
def update (key : IdempotencyKey) (table : List Item) : List Item :=
  table.map (fun it =>
    if it.pk = "IDEMPOTENCY#" ++ key.id && it.sk = "KEY#" ++ key.id then
      { it with key := { it.key with status := key.status, response := key.response } }
    else it)

structure CheckIdempotencyInput where
  idempotencyKey : String
  requestHash : String
deriving DecidableEq

/-- CheckIdempotencyOutput; `existsFlag` is the Go `Exists` field. -/
structure CheckIdempotencyOutput where
  existsFlag : Bool
  status : String
  response : String
  createdAt : Option Nat
deriving DecidableEq

/-- CheckIdempotency.Execute. -/
def checkIdempotencyExecute (now : Nat) (input : CheckIdempotencyInput)
    (table : List Item) : Except String CheckIdempotencyOutput :=
  if input.idempotencyKey = "" then .error "idempotency_key is required"
  else if input.requestHash = "" then .error "request_hash is required"
  else
    match getByRequestHash input.requestHash table with
    | none => .ok { existsFlag := false, status := "", response := "", createdAt := none }
    | some key =>
        if key.IsExpired now then
          .ok { existsFlag := true, status := "expired", response := "",
                createdAt := none }
        else if key.status = .completed then
          .ok { existsFlag := true, status := key.status.toGoString,
                response := key.response, createdAt := some key.createdAt }
        else
          .ok { existsFlag := true, status := key.status.toGoString,
                response := "", createdAt := some key.createdAt }

structure CreateIdempotencyInput where
  idempotencyKey : String
  requestHash : String
  response : String
  accountID : String
deriving DecidableEq

structure CreateIdempotencyOutput where
  idempotencyKey : String
  createdAt : Nat
  expiresAt : Nat
deriving DecidableEq

/-- CreateIdempotency.Execute: validate, substitute a fresh account id for
`uuid.Nil` (modelled as the empty string), build a `pending` record under a
fresh UUID, and unconditionally `Create` it — no existing record with the
same fingerprint is consulted. -/
def createIdempotencyExecute (now : Nat) (freshId freshAccountId : String)
    (input : CreateIdempotencyInput) (table : List Item) :
    Except String (CreateIdempotencyOutput × List Item) :=
  if input.idempotencyKey = "" then .error "idempotency_key is required"
  else if input.requestHash = "" then .error "request_hash is required"
  else
    let accountID := if input.accountID = "" then freshAccountId else input.accountID
    let key : IdempotencyKey :=
      { id := freshId, accountID := accountID, requestHash := input.requestHash,
        status := .pending, response := input.response,
        createdAt := now, expiresAt := now + 24 * 3600 }
    .ok
      ({ idempotencyKey := key.id, createdAt := now, expiresAt := now + 24 * 3600 },
       create now key table)

structure CompleteIdempotencyInput where
  idempotencyKey : String
  response : String
deriving DecidableEq

structure CompleteIdempotencyOutput where
  idempotencyKey : String
  status : String
  completedAt : Nat
deriving DecidableEq

/-- CompleteIdempotency.Execute: validate, `uuid.Parse` the supplied key,
fetch by the parsed id, require `pending`, then update to `completed`.  The
table is returned alongside the result so the error paths visibly leave it
unchanged. -/
def completeIdempotencyExecute (now : Nat) (input : CompleteIdempotencyInput)
    (table : List Item) :
    Except String CompleteIdempotencyOutput × List Item :=
  if input.idempotencyKey = "" then (.error "idempotency_key is required", table)
  else if input.response = "" then (.error "response is required", table)
  else
    match uuidParse input.idempotencyKey with
    | none => (.error "invalid idempotency key format", table)
    | some keyUUID =>
        match getByID keyUUID table with
        | none => (.error "idempotency key not found", table)
        | some key =>
            if key.status ≠ IdempotencyKeyStatus.pending then
              (.error "idempotency key is not in pending status", table)
            else
              let newKey :=
                { key with
                  status := IdempotencyKeyStatus.completed,
                  response := input.response }
              (.ok { idempotencyKey := newKey.id, status := "completed",
                     completedAt := now },
               update newKey table)

end Idem

/-! ## C3: idempotency exclusivity

`CreateIdempotency.Execute` (`Begin`) never consults existing records: it
generates a fresh UUID and unconditionally puts a new `pending` item.  And
because created items carry no `gsi1pk` attribute, the middleware's
`Check` — which queries `gsi1` by `REQUEST#<fingerprint>` — cannot see the
first pending record either.  A second `Begin` with the same fingerprint
therefore succeeds and a second record exists, against the claimed
exclusivity. -/

theorem string_ne_of_append_ne (p : String) {a b : String} (h : a ≠ b) :
    p ++ a ≠ p ++ b :=
  fun e => h (string_append_left_cancel p a b e)

/-- C3: after a successful `Begin` with fingerprint `inp1.requestHash` and no
`Complete`, the middleware's `Check` for the same fingerprint reports no
existing record, and a second `Begin` (which, per `h2`, returned `ok`, not
the pending conflict) leaves TWO pending records with that fingerprint in the
store. -/
theorem C3_second_begin_not_rejected
    (now1 now2 : Nat) (inp1 inp2 : Idem.CreateIdempotencyInput)
    (id1 id2 fa1 fa2 : String)
    (out1 out2 : Idem.CreateIdempotencyOutput)
    (table1 table2 : List Idem.Item)
    (hfp : inp2.requestHash = inp1.requestHash)
    (hid : id1 ≠ id2)
    (h1 : Idem.createIdempotencyExecute now1 id1 fa1 inp1 [] = .ok (out1, table1))
    (h2 : Idem.createIdempotencyExecute now2 id2 fa2 inp2 table1 = .ok (out2, table2)) :
    Idem.checkIdempotencyExecute now2
      { idempotencyKey := inp2.idempotencyKey, requestHash := inp2.requestHash }
      table1
      = .ok { existsFlag := false, status := "", response := "", createdAt := none } ∧
    (table2.filter (fun it => it.key.requestHash = inp1.requestHash &&
        it.key.status = IdempotencyKeyStatus.pending)).length = 2 := by
  unfold Idem.createIdempotencyExecute at h1 h2
  split at h1
  · exact absurd h1 (by simp)
  split at h1
  · exact absurd h1 (by simp)
  split at h2
  · exact absurd h2 (by simp)
  split at h2
  · exact absurd h2 (by simp)
  rw [Except.ok.injEq, Prod.mk.injEq] at h1 h2
  obtain ⟨-, htab1⟩ := h1
  obtain ⟨-, htab2⟩ := h2
  rename_i htok1 hfp1 htok2 hfp2
  have hpk : ("IDEMPOTENCY#" ++ id1 : String) ≠ "IDEMPOTENCY#" ++ id2 :=
    string_ne_of_append_ne _ hid
  constructor
  · simp [Idem.checkIdempotencyExecute, htok2, hfp2, Idem.getByRequestHash,
      ← htab1, Idem.create, Idem.putItem, List.find?]
  · rw [← htab2, ← htab1]
    simp [Idem.create, Idem.putItem, hpk, hfp, List.filter]

def c3Input1 : Idem.CreateIdempotencyInput :=
  { idempotencyKey := "tok-1", requestHash := "fp-1", response := "",
    accountID := "acc-1" }

def c3Input2 : Idem.CreateIdempotencyInput :=
  { idempotencyKey := "tok-1", requestHash := "fp-1", response := "",
    accountID := "acc-1" }

def c3Record1 : IdempotencyKey :=
  { id := "id-1", accountID := "acc-1", requestHash := "fp-1",
    status := .pending, response := "", createdAt := 10, expiresAt := 10 + 24 * 3600 }

def c3Item1 : Idem.Item :=
  { pk := "IDEMPOTENCY#id-1", sk := "KEY#id-1", gsi1pk := none,
    ttl := 10 + 24 * 3600, key := c3Record1 }

def c3Record2 : IdempotencyKey :=
  { id := "id-2", accountID := "acc-1", requestHash := "fp-1",
    status := .pending, response := "", createdAt := 20, expiresAt := 20 + 24 * 3600 }

def c3Item2 : Idem.Item :=
  { pk := "IDEMPOTENCY#id-2", sk := "KEY#id-2", gsi1pk := none,
    ttl := 20 + 24 * 3600, key := c3Record2 }

/-- Witness for C3: two concrete sequential Begins with fingerprint `fp-1`. -/
theorem C3_second_begin_not_rejected_witness :
    ("id-1" : String) ≠ "id-2" ∧
    Idem.createIdempotencyExecute 10 "id-1" "fa-1" c3Input1 []
      = .ok ({ idempotencyKey := "id-1", createdAt := 10, expiresAt := 10 + 24 * 3600 },
             [c3Item1]) ∧
    Idem.createIdempotencyExecute 20 "id-2" "fa-2" c3Input2 [c3Item1]
      = .ok ({ idempotencyKey := "id-2", createdAt := 20, expiresAt := 20 + 24 * 3600 },
             [c3Item1, c3Item2]) ∧
    (Idem.checkIdempotencyExecute 20
        { idempotencyKey := c3Input2.idempotencyKey,
          requestHash := c3Input2.requestHash } [c3Item1]
        = .ok { existsFlag := false, status := "", response := "", createdAt := none } ∧
      (([c3Item1, c3Item2] : List Idem.Item).filter
          (fun it => it.key.requestHash = c3Input1.requestHash &&
            it.key.status = IdempotencyKeyStatus.pending)).length = 2) :=
  ⟨by decide, by rfl, by rfl,
   C3_second_begin_not_rejected 10 20 c3Input1 c3Input2 "id-1" "id-2" "fa-1" "fa-2"
     _ _ [c3Item1] [c3Item1, c3Item2] (by decide) (by decide) (by rfl) (by rfl)⟩

/-! ## C10: Complete accepts only record UUIDs -/

/-- C10: whenever the supplied idempotency key does not parse as a UUID — in
particular any free-form client token the Complete middleware forwards
unchanged — `CompleteIdempotency.Execute` returns an error and the ledger is
unchanged: no record transitions to `completed`. -/
theorem C10_complete_rejects_non_uuid
    (now : Nat) (input : Idem.CompleteIdempotencyInput) (table : List Idem.Item)
    (hparse : uuidParse input.idempotencyKey = none) :
    (∃ e, (Idem.completeIdempotencyExecute now input table).1 = .error e) ∧
    (Idem.completeIdempotencyExecute now input table).2 = table := by
  unfold Idem.completeIdempotencyExecute
  split
  · exact ⟨⟨_, rfl⟩, rfl⟩
  split
  · exact ⟨⟨_, rfl⟩, rfl⟩
  simp only [hparse]
  exact ⟨⟨_, rfl⟩, trivial⟩

def c10PendingItem : Idem.Item :=
  { pk := "IDEMPOTENCY#id-9", sk := "KEY#id-9", gsi1pk := none, ttl := 86400,
    key := { id := "id-9", accountID := "acc-1", requestHash := "fp-9",
             status := .pending, response := "", createdAt := 0,
             expiresAt := 86400 } }

/-- Witness for C10: the client token "tok-1" does not parse as a UUID, and
completing with it errors while the pending record stays untouched. -/
theorem C10_complete_rejects_non_uuid_witness :
    uuidParse "tok-1" = none ∧
    ((∃ e, (Idem.completeIdempotencyExecute 5
        { idempotencyKey := "tok-1", response := "cached" }
        [c10PendingItem]).1 = .error e) ∧
      (Idem.completeIdempotencyExecute 5
        { idempotencyKey := "tok-1", response := "cached" }
        [c10PendingItem]).2 = [c10PendingItem]) :=
  ⟨by decide,
   C10_complete_rejects_non_uuid 5
     { idempotencyKey := "tok-1", response := "cached" } [c10PendingItem]
     (by decide)⟩

/-! ## C5: rate limiter (internal/auth/repository/dynamodb_rate_limit.go)

`CheckRateLimit` over the single counter row for a key: the row is an
`Option RateLimitEntry` threaded through the calls.  All `int64` quantities
are non-negative here, so `Nat` with truncated subtraction coincides with the
Go `if remaining < 0` clamping. -/

structure RateLimitEntry where
  key : String
  count : Nat
  window : Nat
  expiresAt : Nat
  ttl : Nat
deriving DecidableEq

structure RateLimitResult where
  allowed : Bool
  remaining : Nat
  resetTime : Nat
  state : Option RateLimitEntry
deriving DecidableEq

/-- DynamoDBRateLimitRepository.CheckRateLimit: create the row at count 1 on
first sight; reset it to count 1 when `expiresAt < now`; deny without writing
when `count ≥ requests`; otherwise increment. -/
def checkRateLimit (now : Nat) (key : String) (requests window : Nat)
    (st : Option RateLimitEntry) : RateLimitResult :=
  let resetTime := now + window
  match st with
  | none =>
      { allowed := true, remaining := requests - 1, resetTime := resetTime,
        state := some { key := key, count := 1, window := window,
                        expiresAt := resetTime, ttl := resetTime } }
  | some result =>
      if result.expiresAt < now then
        { allowed := true, remaining := requests - 1, resetTime := resetTime,
          state := some { key := key, count := 1, window := result.window,
                          expiresAt := resetTime, ttl := resetTime } }
      else if requests ≤ result.count then
        { allowed := false,
          remaining := if requests < result.count then result.count - requests else 0,
          resetTime := resetTime, state := some result }
      else
        let newCount := result.count + 1
        { allowed := true, remaining := requests - newCount,
          resetTime := resetTime,
          state := some { key := result.key, count := newCount,
                          window := result.window, expiresAt := result.expiresAt,
                          ttl := result.expiresAt } }

/-- The counter row after a sequence of `CheckRateLimit` calls at the given
instants, starting from no row. -/
def runCheckRateLimit (requests window : Nat) (key : String)
    (times : List Nat) : Option RateLimitEntry :=
  times.foldl (fun st now => (checkRateLimit now key requests window st).state) none

/-- C5: with a fixed ceiling `requests ≥ 1`, (a) the stored count never
exceeds the ceiling over any call sequence, and (b) the first call after the
stored window expiry allows the request and resets the count to 1 with a
fresh window, regardless of how exhausted the previous window was. -/
theorem C5_count_bounded_and_window_resets
    (key : String) (requests window : Nat) (hreq : 1 ≤ requests) :
    (∀ times e, runCheckRateLimit requests window key times = some e →
      e.count ≤ requests) ∧
    (∀ now e, e.expiresAt < now →
      (checkRateLimit now key requests window (some e)).allowed = true ∧
      (checkRateLimit now key requests window (some e)).state
        = some { key := key, count := 1, window := e.window,
                 expiresAt := now + window, ttl := now + window }) := by
  have step : ∀ (st : Option RateLimitEntry) (now : Nat),
      (∀ e, st = some e → e.count ≤ requests) →
      ∀ e', (checkRateLimit now key requests window st).state = some e' →
        e'.count ≤ requests := by
    intro st now hinv e' he'
    cases st with
    | none =>
        simp only [checkRateLimit, Option.some.injEq] at he'
        subst he'
        simpa using hreq
    | some result =>
        have hr := hinv result rfl
        by_cases hexp : result.expiresAt < now
        · simp only [checkRateLimit, if_pos hexp, Option.some.injEq] at he'
          subst he'
          simpa using hreq
        · by_cases hceil : requests ≤ result.count
          · simp only [checkRateLimit, if_neg hexp, if_pos hceil,
              Option.some.injEq] at he'
            subst he'
            exact hr
          · simp only [checkRateLimit, if_neg hexp, if_neg hceil,
              Option.some.injEq] at he'
            subst he'
            simp only []
            omega
  refine ⟨?_, ?_⟩
  · have main : ∀ (times : List Nat) (st : Option RateLimitEntry),
        (∀ e, st = some e → e.count ≤ requests) →
        ∀ e, times.foldl
            (fun st now => (checkRateLimit now key requests window st).state)
            st = some e →
          e.count ≤ requests := by
      intro times
      induction times with
      | nil => intro st hinv e he; exact hinv e he
      | cons t ts ih =>
          intro st hinv e he
          exact ih _ (step st t hinv) e he
    intro times e he
    exact main times none (by intro e' h; cases h) e he
  · intro now e hexp
    constructor
    · simp [checkRateLimit, if_pos hexp]
    · simp [checkRateLimit, if_pos hexp]

/-- Witness for C5 at ceiling 2, window 10: the call at t=3 after exhaustion
is denied, and the call at t=100 (past expiry 10) is allowed again with the
count reset to 1. -/
theorem C5_count_bounded_and_window_resets_witness :
    (1 ≤ 2 ∧
      ((∀ times e, runCheckRateLimit 2 10 "k" times = some e → e.count ≤ 2) ∧
        (∀ now e, e.expiresAt < now →
          (checkRateLimit now "k" 2 10 (some e)).allowed = true ∧
          (checkRateLimit now "k" 2 10 (some e)).state
            = some { key := "k", count := 1, window := e.window,
                     expiresAt := now + 10, ttl := now + 10 }))) ∧
    (checkRateLimit 3 "k" 2 10 (runCheckRateLimit 2 10 "k" [0, 1])).allowed = false ∧
    runCheckRateLimit 2 10 "k" [0, 1, 3, 100]
      = some { key := "k", count := 1, window := 10, expiresAt := 110, ttl := 110 } :=
  ⟨⟨by decide, C5_count_bounded_and_window_resets "k" 2 10 (by decide)⟩,
   by decide, by decide⟩

/-! ## C4: revocation finality
(internal/auth/repository/dynamodb_apikey.go + usecase/register_app.go)

The scan-based repository variant named by the claim: `ValidateByKey` scans
items whose sort key contains `APIKEY#` and whose status is `active`, then
bcrypt-compares each stored hash against the raw key; `Delete`/`Revoke` soft
delete by setting status to `inactive`.  `bcrypt.CompareHashAndPassword`
success is carried as the boolean parameter `bv hash raw`. -/

namespace ScanRepo

structure Item where
  pk : String
  sk : String
  gsi1pk : String
  key : ApiKey
deriving DecidableEq

def listStartsWith : List Char → List Char → Bool
  | _, [] => true
  | [], _ :: _ => false
  | a :: as, b :: bs => a = b && listStartsWith as bs

def listContainsSub : List Char → List Char → Bool
  | [], pat => pat.isEmpty
  | a :: t, pat => listStartsWith (a :: t) pat || listContainsSub t pat

/-- DynamoDB `contains(path, operand)` on strings: substring test. -/
def containsSubstr (s sub : String) : Bool :=
  listContainsSub s.data sub.data

def putItem (it : Item) (table : List Item) : List Item :=
  if table.any (fun o => o.pk = it.pk && o.sk = it.sk) then
    table.map (fun o => if o.pk = it.pk && o.sk = it.sk then it else o)
  else
    table ++ [it]

/-- DynamoDBApiKeyRepository.Create (internal variant: no TTL attribute). -/
def create (now : Nat) (apiKey : ApiKey) (table : List Item) : List Item :=
  let apiKey := { apiKey with createdAt := now }
  putItem
    { pk := "ACCOUNT#" ++ apiKey.accountID, sk := "APIKEY#" ++ apiKey.id,
      gsi1pk := "KEYHASH#" ++ apiKey.keyHash, key := apiKey }
    table

/-- DynamoDBApiKeyRepository.GetByID: scan for `id = :id`, first hit. -/
def getByID (id : String) (table : List Item) : Option ApiKey :=
  (table.find? (fun it => it.key.id = id)).map (fun it => it.key)

/-- The `last_used_at` store update applied to a matching row. -/
def touch (now : Nat) (o : Item) : Item :=
  { o with key := { o.key with lastUsedAt := some now } }

/-- DynamoDBApiKeyRepository.ValidateByKey (internal variant): scan rows whose
sort key contains `APIKEY#` with status `active`, bcrypt-compare each hash,
and for the first match update `last_used_at`, then drop it if expired. -/
def validateByKey (bv : String → String → Bool) (now : Nat) (rawKey : String)
    (table : List Item) : Option ApiKey × List Item :=
  let results := table.filter
    (fun it => containsSubstr it.sk "APIKEY#" && it.key.status = ApiKeyStatus.active)
  match results.find? (fun it => bv it.key.keyHash rawKey) with
  | none => (none, table)
  | some it =>
      let table' := table.map
        (fun o => if o.pk = it.pk && o.sk = it.sk then touch now o else o)
      if it.key.IsExpired now then (none, table')
      else (some { it.key with lastUsedAt := some now }, table')

/-- The status write of `Delete` applied to a matching row. -/
def setInactive (o : Item) : Item :=
  { o with key := { o.key with status := ApiKeyStatus.inactive } }

/-- DynamoDBApiKeyRepository.Delete: fetch the key to learn its account, then
soft delete by setting status to `inactive`. -/
def delete (id : String) (table : List Item) : Except String (List Item) :=
  match getByID id table with
  | none => .error "API key not found"
  | some apiKey =>
      .ok (table.map
        (fun o =>
          if o.pk = "ACCOUNT#" ++ apiKey.accountID && o.sk = "APIKEY#" ++ id then
            setInactive o
          else o))

/-- DynamoDBApiKeyRepository.Revoke: same as Delete. -/
def revoke (id : String) (table : List Item) : Except String (List Item) :=
  delete id table

/-- RevokeApiKey.Execute: reject the nil UUID, require the key to exist, then
revoke (the output's `Success=true` carries no information beyond `ok`). -/
def revokeApiKeyExecute (apiKeyID : String) (table : List Item) :
    Except String (List Item) :=
  if apiKeyID = "" then .error "api_key_id is required"
  else
    match getByID apiKeyID table with
    | none => .error "API key not found"
    | some _ => revoke apiKeyID table

/-- ValidateApiKey.Execute (raw-key path) over this repository variant. -/
def validateExecute (bv : String → String → Bool)
    (accountOf : String → Option Account) (now : Nat) (rawKey : String)
    (table : List Item) :
    Except String (ValidateApiKeyOutput × List Item) :=
  if rawKey = "" then .error "either raw_key or key_hash must be provided"
  else
    let res := validateByKey bv now rawKey table
    .ok (validateApiKeyOutput now res.1 accountOf, res.2)

/-- The operations a key is exposed to after revocation: further validations
(of any raw secret, at any instant) and further revocations. -/
inductive Op where
  | validateOp (now : Nat) (raw : String)
  | revokeOp (id : String)
deriving DecidableEq

def stepTable (bv : String → String → Bool) (table : List Item) : Op → List Item
  | .validateOp now raw => (validateByKey bv now raw table).2
  | .revokeOp id =>
      match revokeApiKeyExecute id table with
      | .ok t => t
      | .error _ => table

def runOps (bv : String → String → Bool) (table : List Item) (ops : List Op) :
    List Item :=
  ops.foldl (stepTable bv) table

/-- Invariant carried from the successful revocation onward: the revoked id
is present; rows are keyed by their own account/id; every row whose hash
bcrypt-matches the revoked secret is inactive; every row with the revoked id
is inactive. -/
def RevokedInv (bv : String → String → Bool) (raw id : String)
    (table : List Item) : Prop :=
  (∃ it, it ∈ table ∧ it.key.id = id) ∧
  (∀ it ∈ table, it.pk = "ACCOUNT#" ++ it.key.accountID ∧
    it.sk = "APIKEY#" ++ it.key.id) ∧
  (∀ it ∈ table, bv it.key.keyHash raw = true →
    it.key.status = ApiKeyStatus.inactive) ∧
  (∀ it ∈ table, it.key.id = id → it.key.status = ApiKeyStatus.inactive)

end ScanRepo

theorem list_map_id_of_mem {α : Type} (l : List α) (f : α → α)
    (h : ∀ x ∈ l, f x = x) : l.map f = l := by
  induction l with
  | nil => rfl
  | cons a t ih =>
      simp only [List.map_cons, h a (by simp), List.cons.injEq, true_and]
      exact ih (fun x hx => h x (by simp [hx]))

theorem ScanRepo.setInactive_eq_self (o : ScanRepo.Item)
    (h : o.key.status = ApiKeyStatus.inactive) : ScanRepo.setInactive o = o := by
  cases o with
  | mk pk sk gsi1pk key =>
      cases key
      simp_all [ScanRepo.setInactive]

/-- Transfer of `RevokedInv` along a row map that keeps the primary key, the
id, the account, and the hash, and moves status only toward `inactive`. -/
theorem ScanRepo.RevokedInv.map_pres (bv : String → String → Bool)
    (raw id : String) (t : List ScanRepo.Item) (f : ScanRepo.Item → ScanRepo.Item)
    (hf : ∀ o, (f o).pk = o.pk ∧ (f o).sk = o.sk ∧ (f o).key.id = o.key.id ∧
      (f o).key.accountID = o.key.accountID ∧ (f o).key.keyHash = o.key.keyHash ∧
      ((f o).key.status = o.key.status ∨
        (f o).key.status = ApiKeyStatus.inactive))
    (hinv : ScanRepo.RevokedInv bv raw id t) :
    ScanRepo.RevokedInv bv raw id (t.map f) := by
  obtain ⟨⟨w, hw, hwid⟩, hwf, hm, hq⟩ := hinv
  refine ⟨⟨f w, List.mem_map_of_mem f hw, by rw [(hf w).2.2.1]; exact hwid⟩, ?_, ?_, ?_⟩
  · intro it hit
    obtain ⟨o, ho, rfl⟩ := List.mem_map.mp hit
    obtain ⟨hpk, hsk, hid', hacc, -, -⟩ := hf o
    obtain ⟨hpk0, hsk0⟩ := hwf o ho
    exact ⟨by rw [hpk, hacc, hpk0], by rw [hsk, hid', hsk0]⟩
  · intro it hit hbv
    obtain ⟨o, ho, rfl⟩ := List.mem_map.mp hit
    obtain ⟨-, -, -, -, hhash, hst⟩ := hf o
    rw [hhash] at hbv
    rcases hst with hst | hst
    · rw [hst]; exact hm o ho hbv
    · exact hst
  · intro it hit hitid
    obtain ⟨o, ho, rfl⟩ := List.mem_map.mp hit
    obtain ⟨-, -, hid', -, -, hst⟩ := hf o
    rw [hid'] at hitid
    rcases hst with hst | hst
    · rw [hst]; exact hq o ho hitid
    · exact hst

/-- Under the invariant, the scan-and-bcrypt lookup misses: every row whose
hash matches the revoked raw secret is inactive and the scan filter only
admits active rows. -/
theorem ScanRepo.validateByKey_inactive_miss (bv : String → String → Bool)
    (raw id : String) (now : Nat) (t : List ScanRepo.Item)
    (hinv : ScanRepo.RevokedInv bv raw id t) :
    ScanRepo.validateByKey bv now raw t = (none, t) := by
  obtain ⟨-, -, hm, -⟩ := hinv
  have hfind : (t.filter (fun it =>
      ScanRepo.containsSubstr it.sk "APIKEY#" &&
        it.key.status = ApiKeyStatus.active)).find?
      (fun it => bv it.key.keyHash raw) = none := by
    rw [List.find?_eq_none]
    intro it hit hbv
    obtain ⟨hmem, hpred⟩ := List.mem_filter.mp hit
    simp only [Bool.and_eq_true, decide_eq_true_eq] at hpred
    have := hm it hmem hbv
    rw [this] at hpred
    exact absurd hpred.2 (by simp)
  simp [ScanRepo.validateByKey, hfind]

/-- The state component of the scan-based lookup either is the table itself
or touches `last_used_at` on the matched row. -/
theorem ScanRepo.validateByKey_snd (bv : String → String → Bool) (now : Nat)
    (raw : String) (t : List ScanRepo.Item) :
    (ScanRepo.validateByKey bv now raw t).2 = t ∨
    ∃ it : ScanRepo.Item, (ScanRepo.validateByKey bv now raw t).2 =
      t.map (fun o => if o.pk = it.pk && o.sk = it.sk then ScanRepo.touch now o else o) := by
  unfold ScanRepo.validateByKey
  cases hfind : (t.filter (fun it =>
      ScanRepo.containsSubstr it.sk "APIKEY#" &&
        it.key.status = ApiKeyStatus.active)).find?
      (fun it => bv it.key.keyHash raw) with
  | none => left; simp [hfind]
  | some it =>
      right
      refine ⟨it, ?_⟩
      simp only [hfind]
      split <;> rfl

/-- A successful revocation rewrites the table by the status-to-inactive map
for some account value. -/
theorem ScanRepo.revokeExecute_ok_shape (id : String)
    (t t' : List ScanRepo.Item)
    (h : ScanRepo.revokeApiKeyExecute id t = .ok t') :
    ∃ a, t' = t.map (fun o =>
      if o.pk = "ACCOUNT#" ++ a && o.sk = "APIKEY#" ++ id then
        ScanRepo.setInactive o
      else o) := by
  unfold ScanRepo.revokeApiKeyExecute at h
  split at h
  · exact absurd h (by simp)
  split at h
  · exact absurd h (by simp)
  rename_i k0 hget
  unfold ScanRepo.revoke ScanRepo.delete at h
  rw [hget] at h
  simp only [Except.ok.injEq] at h
  exact ⟨k0.accountID, h.symm⟩

/-- `RevokedInv` is preserved by every later validation or revocation. -/
theorem ScanRepo.RevokedInv.step_pres (bv : String → String → Bool)
    (raw id : String) (t : List ScanRepo.Item) (op : ScanRepo.Op)
    (hinv : ScanRepo.RevokedInv bv raw id t) :
    ScanRepo.RevokedInv bv raw id (ScanRepo.stepTable bv t op) := by
  cases op with
  | validateOp now raw' =>
      show ScanRepo.RevokedInv bv raw id (ScanRepo.validateByKey bv now raw' t).2
      rcases ScanRepo.validateByKey_snd bv now raw' t with h | ⟨it, h⟩
      · rw [h]; exact hinv
      · rw [h]
        refine ScanRepo.RevokedInv.map_pres bv raw id t _ (fun o => ?_) hinv
        by_cases hc : (o.pk = it.pk && o.sk = it.sk) = true <;>
          simp [hc, ScanRepo.touch]
  | revokeOp id' =>
      show ScanRepo.RevokedInv bv raw id
        (match ScanRepo.revokeApiKeyExecute id' t with
          | .ok t2 => t2
          | .error _ => t)
      cases hrev : ScanRepo.revokeApiKeyExecute id' t with
      | error e => exact hinv
      | ok t2 =>
          obtain ⟨a, ha⟩ := ScanRepo.revokeExecute_ok_shape id' t t2 hrev
          rw [ha]
          refine ScanRepo.RevokedInv.map_pres bv raw id t _ (fun o => ?_) hinv
          by_cases hc : (o.pk = "ACCOUNT#" ++ a && o.sk = "APIKEY#" ++ id') = true <;>
            simp [hc, ScanRepo.setInactive]

/-- A successful revocation establishes the invariant, provided each row is
keyed by its own account/id, ids are unique, and the raw secret
bcrypt-matches only the revoked key. -/
theorem ScanRepo.RevokedInv.of_revoke (bv : String → String → Bool)
    (raw id : String) (table table1 : List ScanRepo.Item)
    (hwf : ∀ it ∈ table, it.pk = "ACCOUNT#" ++ it.key.accountID ∧
      it.sk = "APIKEY#" ++ it.key.id)
    (huniq : ∀ it1 ∈ table, ∀ it2 ∈ table, it1.key.id = it2.key.id → it1 = it2)
    (hmatch : ∀ it ∈ table, bv it.key.keyHash raw = true → it.key.id = id)
    (hrev : ScanRepo.revokeApiKeyExecute id table = .ok table1) :
    ScanRepo.RevokedInv bv raw id table1 := by
  unfold ScanRepo.revokeApiKeyExecute at hrev
  split at hrev
  · exact absurd hrev (by simp)
  split at hrev
  · exact absurd hrev (by simp)
  rename_i k0 hget
  unfold ScanRepo.revoke ScanRepo.delete at hrev
  rw [hget] at hrev
  simp only [Except.ok.injEq] at hrev
  obtain ⟨it0, hfind0, hk0⟩ :
      ∃ it0, table.find? (fun it => it.key.id = id) = some it0 ∧ it0.key = k0 := by
    unfold ScanRepo.getByID at hget
    cases hfind : table.find? (fun it => it.key.id = id) with
    | none => rw [hfind] at hget; cases hget
    | some it0 => rw [hfind] at hget; exact ⟨it0, rfl, by simpa using hget⟩
  have hmem0 : it0 ∈ table := List.mem_of_find?_eq_some hfind0
  have hid0 : it0.key.id = id := by simpa using List.find?_some hfind0
  subst hrev
  set g : ScanRepo.Item → ScanRepo.Item := fun o =>
    if o.pk = "ACCOUNT#" ++ k0.accountID && o.sk = "APIKEY#" ++ id then
      ScanRepo.setInactive o
    else o with hg
  have hfg : ∀ o, (g o).pk = o.pk ∧ (g o).sk = o.sk ∧ (g o).key.id = o.key.id ∧
      (g o).key.accountID = o.key.accountID ∧ (g o).key.keyHash = o.key.keyHash ∧
      ((g o).key.status = o.key.status ∨
        (g o).key.status = ApiKeyStatus.inactive) := by
    intro o
    simp only [hg]
    by_cases hc : (o.pk = "ACCOUNT#" ++ k0.accountID && o.sk = "APIKEY#" ++ id) = true
    · rw [if_pos hc]; simp [ScanRepo.setInactive]
    · rw [if_neg hc]; simp
  have hcond : ∀ o ∈ table, o.key.id = id → g o = ScanRepo.setInactive o := by
    intro o ho hoid
    have heq0 : o = it0 := huniq o ho it0 hmem0 (by rw [hoid, hid0])
    obtain ⟨hpk0, hsk0⟩ := hwf o ho
    have h1 : o.pk = "ACCOUNT#" ++ k0.accountID := by
      rw [hpk0, heq0, hk0]
    have h2 : o.sk = "APIKEY#" ++ id := by
      rw [hsk0, hoid]
    have hc : (o.pk = "ACCOUNT#" ++ k0.accountID && o.sk = "APIKEY#" ++ id) = true := by
      rw [h1, h2]; simp
    simp only [hg]
    rw [if_pos hc]
  refine ⟨⟨g it0, List.mem_map_of_mem g hmem0, by rw [(hfg it0).2.2.1]; exact hid0⟩,
    ?_, ?_, ?_⟩
  · intro it hit
    obtain ⟨o, ho, rfl⟩ := List.mem_map.mp hit
    obtain ⟨hpk, hsk, hid', hacc, -, -⟩ := hfg o
    obtain ⟨hpk0, hsk0⟩ := hwf o ho
    exact ⟨by rw [hpk, hacc, hpk0], by rw [hsk, hid', hsk0]⟩
  · intro it hit hbv
    obtain ⟨o, ho, rfl⟩ := List.mem_map.mp hit
    rw [(hfg o).2.2.2.2.1] at hbv
    have hoid := hmatch o ho hbv
    rw [hcond o ho hoid]
    simp [ScanRepo.setInactive]
  · intro it hit hitid
    obtain ⟨o, ho, rfl⟩ := List.mem_map.mp hit
    rw [(hfg o).2.2.1] at hitid
    rw [hcond o ho hitid]
    simp [ScanRepo.setInactive]

/-- Under the invariant, revoking the already-inactive key succeeds and
leaves the table unchanged: a no-op success. -/
theorem ScanRepo.revoke_noop (bv : String → String → Bool)
    (raw id : String) (t : List ScanRepo.Item) (hid : id ≠ "")
    (hinv : ScanRepo.RevokedInv bv raw id t) :
    ScanRepo.revokeApiKeyExecute id t = .ok t := by
  obtain ⟨⟨w, hw, hwid⟩, hwf, -, hq⟩ := hinv
  obtain ⟨it1, hfind1⟩ :
      ∃ it1, t.find? (fun it => it.key.id = id) = some it1 := by
    cases hf : t.find? (fun it => it.key.id = id) with
    | some it1 => exact ⟨it1, rfl⟩
    | none =>
        rw [List.find?_eq_none] at hf
        exact absurd (by simpa using hwid) (by simpa using hf w hw)
  have hmem1 : it1 ∈ t := List.mem_of_find?_eq_some hfind1
  have hid1 : it1.key.id = id := by simpa using List.find?_some hfind1
  have hget : ScanRepo.getByID id t = some it1.key := by
    simp [ScanRepo.getByID, hfind1]
  have hmap : (t.map (fun o =>
      if o.pk = "ACCOUNT#" ++ it1.key.accountID && o.sk = "APIKEY#" ++ id then
        ScanRepo.setInactive o
      else o)) = t := by
    refine list_map_id_of_mem t _ (fun o ho => ?_)
    by_cases hc : (o.pk = "ACCOUNT#" ++ it1.key.accountID &&
        o.sk = "APIKEY#" ++ id) = true
    · rw [if_pos hc]
      simp only [Bool.and_eq_true, decide_eq_true_eq] at hc
      obtain ⟨hpk0, hsk0⟩ := hwf o ho
      have hoid : o.key.id = id :=
        string_append_left_cancel "APIKEY#" _ _ (by rw [← hsk0, hc.2])
      exact ScanRepo.setInactive_eq_self o (hq o ho hoid)
    · rw [if_neg hc]
  unfold ScanRepo.revokeApiKeyExecute ScanRepo.revoke ScanRepo.delete
  rw [if_neg hid, hget]
  simpa using hmap

/-- C4: once `RevokeApiKey.Execute` succeeds for a key, then after any
sequence of further validations and revocations (i) validating that key's raw
secret returns `valid=false` (and the store is untouched by the lookup
miss), (ii) every row with the revoked id is still `inactive` — no modelled
transition returns it to `active` — and (iii) revoking again is a no-op
success.  The hypotheses say the rows are keyed by their own account/id, ids
are unique, and the raw secret bcrypt-matches only the revoked key. -/
theorem C4_revocation_finality
    (bv : String → String → Bool) (accountOf : String → Option Account)
    (raw id : String) (table table1 : List ScanRepo.Item)
    (hid : id ≠ "") (hraw : raw ≠ "")
    (hwf : ∀ it ∈ table, it.pk = "ACCOUNT#" ++ it.key.accountID ∧
      it.sk = "APIKEY#" ++ it.key.id)
    (huniq : ∀ it1 ∈ table, ∀ it2 ∈ table, it1.key.id = it2.key.id → it1 = it2)
    (hmatch : ∀ it ∈ table, bv it.key.keyHash raw = true → it.key.id = id)
    (hrevoke : ScanRepo.revokeApiKeyExecute id table = .ok table1)
    (ops : List ScanRepo.Op) :
    (∀ now', ScanRepo.validateExecute bv accountOf now' raw
        (ScanRepo.runOps bv table1 ops)
        = .ok (validateApiKeyOutput now' none accountOf,
               ScanRepo.runOps bv table1 ops) ∧
      (validateApiKeyOutput now' none accountOf).valid = false) ∧
    (∀ it ∈ ScanRepo.runOps bv table1 ops, it.key.id = id →
      it.key.status = ApiKeyStatus.inactive) ∧
    ScanRepo.revokeApiKeyExecute id (ScanRepo.runOps bv table1 ops)
      = .ok (ScanRepo.runOps bv table1 ops) := by
  have hinv1 : ScanRepo.RevokedInv bv raw id table1 :=
    ScanRepo.RevokedInv.of_revoke bv raw id table table1 hwf huniq hmatch hrevoke
  have hrun : ∀ (os : List ScanRepo.Op) (t : List ScanRepo.Item),
      ScanRepo.RevokedInv bv raw id t →
      ScanRepo.RevokedInv bv raw id (ScanRepo.runOps bv t os) := by
    intro os
    induction os with
    | nil => intro t h; exact h
    | cons o os ih =>
        intro t h
        exact ih _ (ScanRepo.RevokedInv.step_pres bv raw id t o h)
  have hinv2 := hrun ops table1 hinv1
  refine ⟨?_, hinv2.2.2.2, ScanRepo.revoke_noop bv raw id _ hid hinv2⟩
  intro now'
  have hmiss := ScanRepo.validateByKey_inactive_miss bv raw id now' _ hinv2
  constructor
  · simp [ScanRepo.validateExecute, hraw, hmiss]
  · simp [validateApiKeyOutput]

def c4Bv : String → String → Bool :=
  fun h r => h = "HASH-1" && r = "raw-1"

def c4Key : ApiKey :=
  { id := "key-4", accountID := "acc-4", name := "k4", keyHash := "HASH-1",
    permissions := ["read:keys"], status := .active, lastUsedAt := none,
    expiresAt := 1000, createdAt := 0 }

def c4Item : ScanRepo.Item :=
  { pk := "ACCOUNT#acc-4", sk := "APIKEY#key-4", gsi1pk := "KEYHASH#HASH-1",
    key := c4Key }

def c4ItemInactive : ScanRepo.Item :=
  { pk := "ACCOUNT#acc-4", sk := "APIKEY#key-4", gsi1pk := "KEYHASH#HASH-1",
    key := { c4Key with status := .inactive } }

def c4Ops : List ScanRepo.Op :=
  [ScanRepo.Op.validateOp 5 "raw-1", ScanRepo.Op.revokeOp "key-4"]

/-- Witness for C4: one concrete key, revoked, then a validation and another
revocation. -/
theorem C4_revocation_finality_witness :
    (("key-4" : String) ≠ "" ∧ ("raw-1" : String) ≠ "" ∧
      ScanRepo.revokeApiKeyExecute "key-4" [c4Item] = .ok [c4ItemInactive]) ∧
    ((∀ now', ScanRepo.validateExecute c4Bv cAccountOf now' "raw-1"
        (ScanRepo.runOps c4Bv [c4ItemInactive] c4Ops)
        = .ok (validateApiKeyOutput now' none cAccountOf,
               ScanRepo.runOps c4Bv [c4ItemInactive] c4Ops) ∧
        (validateApiKeyOutput now' none cAccountOf).valid = false) ∧
      (∀ it ∈ ScanRepo.runOps c4Bv [c4ItemInactive] c4Ops,
        it.key.id = "key-4" → it.key.status = ApiKeyStatus.inactive) ∧
      ScanRepo.revokeApiKeyExecute "key-4" (ScanRepo.runOps c4Bv [c4ItemInactive] c4Ops)
        = .ok (ScanRepo.runOps c4Bv [c4ItemInactive] c4Ops)) :=
  ⟨⟨by decide, by decide, by rfl⟩,
   C4_revocation_finality c4Bv cAccountOf "raw-1" "key-4" [c4Item] [c4ItemInactive]
     (by decide) (by decide) (by decide) (by decide) (by decide) (by rfl) c4Ops⟩

/-! ## Audit recorder (internal/auth/audit/logger.go) and the auth middleware

One model serves C6 and C8: `DynamoDBAuditLogger` writes items whose
partition key comes from `createPartitionKey` and whose sort key from
`createSortKey`; `storeAuditEvent` is the fallible `PutItem`; queries go
through `QueryAuditLogs`.  `time.Format("2006-01-02")` is carried as the
explicit `dateStr` of the instant. -/

namespace Audit

structure Event where
  timestamp : Nat
  eventType : String
  accountID : Option String
  apiKeyID : Option String
  apiKeyName : Option String
  ipAddress : String
  userAgent : String
  success : Bool
  details : List (String × String)
deriving DecidableEq

structure Item where
  pk : String
  sk : String
  ttl : Nat
  event : Event
deriving DecidableEq

/-- DynamoDBAuditLogger.createPartitionKey. -/
def createPartitionKey (eventType : String) (dateStr : String) : String :=
  if eventType = "authentication" then "AUDIT#AUTH#" ++ dateStr
  else if eventType = "api_key_created" || eventType = "api_key_revoked" then
    "AUDIT#APIKEY#" ++ dateStr
  else if eventType = "account_created" then "AUDIT#ACCOUNT#" ++ dateStr
  else "AUDIT#" ++ eventType ++ "#" ++ dateStr

/-- DynamoDBAuditLogger.createSortKey. -/
def createSortKey (dateStr : String) (unix : Nat) : String :=
  dateStr ++ "#" ++ toString unix

/-- The logger's observable state: the DynamoDB table plus the local error
log (`log.Printf`). -/
structure LoggerState where
  table : List Item
  localLog : List String
deriving DecidableEq

/-- DynamoDBAuditLogger.storeAuditEvent: a plain PutItem, which fails when
the backing store is down (`storeOk = false`). -/
def storeAuditEvent (storeOk : Bool) (it : Item) (table : List Item) :
    Except String (List Item) :=
  if storeOk then .ok (table ++ [it])
  else .error "failed to store audit event in DynamoDB"

/-- DynamoDBAuditLogger.LogAuthentication.  The Go method returns nothing:
its Lean type is `LoggerState`, not `Except _ LoggerState`, so no store
failure can reach the caller; the failure is swallowed into the local log. -/
def logAuthentication (storeOk : Bool) (now : Nat) (dateStr : String)
    (accountID apiKeyID apiKeyName : Option String) (ip ua : String)
    (success : Bool) (details : List (String × String)) (st : LoggerState) :
    LoggerState :=
  let item : Item :=
    { pk := createPartitionKey "authentication" dateStr,
      sk := createSortKey dateStr now,
      ttl := now + 90 * 24 * 3600,
      event := { timestamp := now, eventType := "authentication",
                 accountID := accountID, apiKeyID := apiKeyID,
                 apiKeyName := apiKeyName, ipAddress := ip, userAgent := ua,
                 success := success, details := details } }
  match storeAuditEvent storeOk item st.table with
  | .ok t => { st with table := t }
  | .error e =>
      { st with localLog := st.localLog ++
          ["Failed to store authentication audit event in DynamoDB: " ++ e] }

/-- DynamoDBAuditLogger.QueryAuditLogs: the partition key searched is
`AUDIT#<eventType>` (with a sort-key date bound when an account is also
given) or `ACCOUNT#<accountID>`; at least one of the two filters is
required; a `timestamp BETWEEN` filter applies when both bounds are set. -/
def queryAuditLogs (eventType : String) (accountID : Option String)
    (startDateStr : String) (startTime endTime : Nat) (limit : Nat)
    (table : List Item) : Except String (List Event) :=
  let keyPred? : Option (Item → Bool) :=
    if eventType ≠ "" && accountID.isSome then
      some (fun it => it.pk = "AUDIT#" ++ eventType &&
        it.sk.startsWith (startDateStr ++ "#"))
    else if eventType ≠ "" then
      some (fun it => it.pk = "AUDIT#" ++ eventType)
    else
      match accountID with
      | some aid => some (fun it => it.pk = "ACCOUNT#" ++ aid)
      | none => none
  match keyPred? with
  | none => .error "at least one of eventType or accountID must be provided"
  | some keyPred =>
      let rows := table.filter keyPred
      let rows :=
        if startTime ≠ 0 && endTime ≠ 0 then
          rows.filter (fun it =>
            startTime ≤ it.event.timestamp && it.event.timestamp ≤ endTime)
        else rows
      .ok ((rows.take limit).map (fun it => it.event))

end Audit

/-! ## C6: audit non-interference (AuthMiddleware.RequireAuth) -/

/-- The four outcomes of AuthMiddleware.RequireAuth. -/
inductive AuthOutcome where
  | unauthorizedMissing
  | serverError (msg : String)
  | unauthorizedInvalid
  | authenticated (accountID apiKeyID apiKeyName : String)
      (permissions : List String)
deriving DecidableEq

/-- AuthMiddleware.RequireAuth: extract the secret from `x-api-key` or a
`Bearer` Authorization header, validate it (`validateResult` stands for
`ValidateApiKey.Execute` over the healthy key/account stores), log every
attempt through the audit logger, and return the outcome.  (On success the
Go code dereferences the output's identity pointers, which the validate
output always populates alongside `AccountID`; `getD` renders those
dereferences.) -/
def extractApiKey (apiKeyHeader authHeader : String) : String :=
  if apiKeyHeader ≠ "" then apiKeyHeader
  else if authHeader.startsWith "Bearer " then authHeader.drop 7
  else authHeader

def requireAuth (storeOk : Bool) (now : Nat) (dateStr : String)
    (apiKeyHeader authHeader ip ua : String)
    (validateResult : String → Except String ValidateApiKeyOutput)
    (st : Audit.LoggerState) : AuthOutcome × Audit.LoggerState :=
  let apiKey := extractApiKey apiKeyHeader authHeader
  if apiKey = "" then
    (.unauthorizedMissing,
     Audit.logAuthentication storeOk now dateStr none none none ip ua false
       [("reason", "missing_api_key")] st)
  else
    match validateResult apiKey with
    | .error e =>
        (.serverError e,
         Audit.logAuthentication storeOk now dateStr none none none ip ua false
           [("reason", "validation_error"), ("error", e)] st)
    | .ok out =>
        if !out.valid || out.accountID = none then
          (.unauthorizedInvalid,
           Audit.logAuthentication storeOk now dateStr none none none ip ua false
             [("reason", "invalid_or_expired_key")] st)
        else
          (.authenticated (out.accountID.getD "") (out.apiKeyID.getD "")
             (out.name.getD "") out.permissions,
           Audit.logAuthentication storeOk now dateStr out.accountID
             out.apiKeyID out.name ip ua true [] st)

/-- C6: audit-store failure never interferes with authentication.  (i) The
outcome of `RequireAuth` is identical whether the audit store works or is
down; (ii) `LogAuthentication` surfaces no error (its type carries none) and
swallows a store failure by leaving the table as it was and appending one
local log line. -/
theorem C6_audit_failure_not_interfering
    (now : Nat) (dateStr apiKeyHeader authHeader ip ua : String)
    (validateResult : String → Except String ValidateApiKeyOutput)
    (st : Audit.LoggerState) :
    ((requireAuth true now dateStr apiKeyHeader authHeader ip ua
        validateResult st).1
      = (requireAuth false now dateStr apiKeyHeader authHeader ip ua
        validateResult st).1) ∧
    (∀ (accountID apiKeyID apiKeyName : Option String) (success : Bool)
        (details : List (String × String)),
      (Audit.logAuthentication false now dateStr accountID apiKeyID apiKeyName
          ip ua success details st).table = st.table ∧
      ∃ msg, (Audit.logAuthentication false now dateStr accountID apiKeyID
          apiKeyName ip ua success details st).localLog
        = st.localLog ++ [msg]) := by
  constructor
  · unfold requireAuth
    simp only []
    split
    · rfl
    · split
      · rfl
      · split <;> rfl
  · intro accountID apiKeyID apiKeyName success details
    exact ⟨rfl, _, rfl⟩

/-! ## C8: audit storage vs. query partition keys

`createPartitionKey` stores authentication events under
`AUDIT#AUTH#<date>`, but `QueryAuditLogs` searches the partition
`AUDIT#<eventType>` (here `AUDIT#authentication`), and the account-scoped
path searches `ACCOUNT#<id>`, an attribute no audit item is ever written
with.  Both queries therefore return nothing, however many matching events
were recorded. -/

theorem audit_auth_pk_ne (d : String) :
    "AUDIT#AUTH#" ++ d ≠ "AUDIT#authentication" := by
  intro h
  have h2 : ("AUDIT#AUTH#" ++ d).data.take 7
      = ("AUDIT#authentication" : String).data.take 7 := by rw [h]
  rw [String.data_append,
    List.take_append_of_le_length (by decide)] at h2
  exact absurd h2 (by decide)

theorem audit_account_pk_ne (d aid : String) :
    "AUDIT#AUTH#" ++ d ≠ "ACCOUNT#" ++ aid := by
  intro h
  have h2 : ("AUDIT#AUTH#" ++ d).data.take 2
      = ("ACCOUNT#" ++ aid).data.take 2 := by rw [h]
  rw [String.data_append, String.data_append,
    List.take_append_of_le_length (by decide),
    List.take_append_of_le_length (by decide)] at h2
  exact absurd h2 (by decide)

/-- One authentication-logging call. -/
structure AuthLogCall where
  now : Nat
  dateStr : String
  accountID : Option String
  apiKeyID : Option String
  apiKeyName : Option String
  ip : String
  ua : String
  success : Bool
  details : List (String × String)
deriving DecidableEq

def runAuthLog (calls : List AuthLogCall) (st : Audit.LoggerState) :
    Audit.LoggerState :=
  calls.foldl
    (fun s c => Audit.logAuthentication true c.now c.dateStr c.accountID
      c.apiKeyID c.apiKeyName c.ip c.ua c.success c.details s)
    st

/-- C8: however many authentication events were recorded (one stored item
per call, so the store is not empty), a category query for
`authentication` — with any time range — and an account-scoped query both
return the empty list: the recorded events are unreachable through
`QueryAuditLogs`. -/
theorem C8_query_misses_stored_events
    (calls : List AuthLogCall) (startDateStr : String)
    (startTime endTime limit : Nat) (aid : String) :
    (runAuthLog calls ⟨[], []⟩).table.length = calls.length ∧
    Audit.queryAuditLogs "authentication" none startDateStr startTime endTime
      limit (runAuthLog calls ⟨[], []⟩).table = .ok [] ∧
    Audit.queryAuditLogs "" (some aid) startDateStr startTime endTime
      limit (runAuthLog calls ⟨[], []⟩).table = .ok [] := by
  have hshape : ∀ (cs : List AuthLogCall) (st : Audit.LoggerState),
      (runAuthLog cs st).table.length = st.table.length + cs.length ∧
      (∀ it ∈ (runAuthLog cs st).table,
        it ∈ st.table ∨ ∃ d, it.pk = "AUDIT#AUTH#" ++ d) := by
    intro cs
    induction cs with
    | nil => intro st; exact ⟨rfl, fun it hit => Or.inl hit⟩
    | cons c cs ih =>
        intro st
        have hstep : (Audit.logAuthentication true c.now c.dateStr c.accountID
            c.apiKeyID c.apiKeyName c.ip c.ua c.success c.details st).table
            = st.table ++ [⟨Audit.createPartitionKey "authentication" c.dateStr,
                Audit.createSortKey c.dateStr c.now, c.now + 90 * 24 * 3600,
                ⟨c.now, "authentication", c.accountID, c.apiKeyID, c.apiKeyName,
                 c.ip, c.ua, c.success, c.details⟩⟩] := rfl
        obtain ⟨hl, hm⟩ := ih (Audit.logAuthentication true c.now c.dateStr
          c.accountID c.apiKeyID c.apiKeyName c.ip c.ua c.success c.details st)
        refine ⟨?_, ?_⟩
        · show (runAuthLog cs _).table.length = st.table.length + (cs.length + 1)
          rw [hl, hstep]
          simp
          omega
        · intro it hit
          rcases hm it hit with hin | hpk
          · rw [hstep] at hin
            rcases List.mem_append.mp hin with hin | hin
            · exact Or.inl hin
            · right
              refine ⟨c.dateStr, ?_⟩
              simp only [List.mem_singleton] at hin
              rw [hin]
              rfl
          · exact Or.inr hpk
  obtain ⟨hlen, hpk⟩ := hshape calls ⟨[], []⟩
  have hpk2 : ∀ it ∈ (runAuthLog calls ⟨[], []⟩).table,
      ∃ d, it.pk = "AUDIT#AUTH#" ++ d := by
    intro it hit
    rcases hpk it hit with h | h
    · cases h
    · exact h
  refine ⟨by simpa using hlen, ?_, ?_⟩
  · simp [Audit.queryAuditLogs]
    right
    split
    · rw [List.filter_eq_nil_iff]
      intro a ha
      obtain ⟨d, hd⟩ := hpk2 a ha
      simp only [Bool.and_eq_true, decide_eq_true_eq]
      rintro ⟨-, hpkeq⟩
      rw [hd] at hpkeq
      exact audit_auth_pk_ne d hpkeq
    · rw [List.filter_eq_nil_iff]
      intro a ha
      obtain ⟨d, hd⟩ := hpk2 a ha
      simp only [decide_eq_true_eq]
      rw [hd]
      exact audit_auth_pk_ne d
  · simp [Audit.queryAuditLogs]
    right
    split
    · rw [List.filter_eq_nil_iff]
      intro a ha
      obtain ⟨d, hd⟩ := hpk2 a ha
      simp only [Bool.and_eq_true, decide_eq_true_eq]
      rintro ⟨-, hpkeq⟩
      rw [hd] at hpkeq
      exact audit_account_pk_ne d aid hpkeq
    · rw [List.filter_eq_nil_iff]
      intro a ha
      obtain ⟨d, hd⟩ := hpk2 a ha
      simp only [decide_eq_true_eq]
      rw [hd]
      exact audit_account_pk_ne d aid

/-! ## C9: the idempotency request fingerprint

`IdempotencyMiddleware.generateRequestHash` builds
`fmt.Sprintf("%s:%s:%s:%s", method, path, body)` — four verbs, three
arguments, so Go renders the missing one as the literal `%!s(MISSING)` —
then appends `:<lowercased key>:<value>` for every request header **in Go
map iteration order**, which the language randomizes per run, and SHA-256
hashes the result.  The fingerprint is therefore a function of the
enumeration order of the headers, not only of their contents. -/

def asciiLowerStr (s : String) : String :=
  String.mk (s.data.map asciiLower)

/-- generateRequestHash, with the header map's iteration order passed in as
the list order (first header value only, as in the Go code). -/
def generateRequestHash (method path body : String)
    (headers : List (String × String)) : String :=
  let requestData := method ++ ":" ++ path ++ ":" ++ body ++ ":" ++ "%!s(MISSING)"
  let requestData := headers.foldl
    (fun acc kv => acc ++ ":" ++ asciiLowerStr kv.1 ++ ":" ++ kv.2) requestData
  sha256Hex requestData

set_option maxRecDepth 8000 in
/-- C9: the same request — same method, path, body, and the same set of
headers (the two lists are permutations of each other) — fingerprints to two
different values under two enumeration orders of the header map, so the
fingerprint is not a stable function of the request. -/
theorem C9_fingerprint_depends_on_header_order :
    ([("Idempotency-Key", "tok-1"), ("User-Agent", "curl/8")]
        : List (String × String)).Perm
      [("User-Agent", "curl/8"), ("Idempotency-Key", "tok-1")] ∧
    generateRequestHash "POST" "/payments" "amount=1"
        [("Idempotency-Key", "tok-1"), ("User-Agent", "curl/8")]
      ≠ generateRequestHash "POST" "/payments" "amount=1"
        [("User-Agent", "curl/8"), ("Idempotency-Key", "tok-1")] :=
  ⟨by decide, by decide⟩
